import Mathlib

/-!
Verification of the disaster-relief routing core of the Mac-Eng-Comp repository
(src/main.py, src/app.py, src/gui.py) against its natural-language specification.

Embedding conventions:
* Python floats are modelled as exact numbers: coordinates, speeds, intensities and
  stored priority scores are rationals (so that assignment and ranking are executable),
  while quantities produced by trigonometry (haversine distances, route distances and
  durations) live in the reals.
* A Python dict agent/building is modelled as a record with the fields this code reads
  and writes.  The `steps` key of a provider route is never read downstream and is
  omitted from the `Route` record.
* Fire severities form the closed vocabulary of the data model
  (none/low/medium/high/critical); every writer in the source only produces these tags.
* External collaborators (the Mapbox directions provider, the Gemini recommendation
  service) are injected as function arguments; `none`/`unavailable` models every
  failure mode (unconfigured token, HTTP error, timeout, exception).
-/

namespace MacEngComp

/-- Closed fire-severity vocabulary (keys of the `FIRE_SEVERITY` dict in main.py). -/
inductive FireSeverity where
  | none
  | low
  | medium
  | high
  | critical
deriving DecidableEq

/-- A building record as produced by `get_buildings_from_mapbox` / the sample generator
and mutated by `generate_fires` and `add_priority_scores` (main.py).  The stored
priority score is kept as a rational so that sorting and assignment are executable. -/
structure Site where
  id : String
  lon : ℚ
  lat : ℚ
  type : String
  has_fire : Bool
  fire_severity : FireSeverity
  fire_intensity : ℚ
  priority_score : ℚ
deriving DecidableEq

/-- A route dict as stored in `agent['route']`: waypoint geometry, distance (m),
duration (s) and the `'type'` tag (`some "straight_line"` for straight-line routes;
provider routes carry no tag, modelled as `Option.none`). -/
structure Route where
  geometry : List (ℚ × ℚ)
  distance : ℝ
  duration : ℝ
  kind : Option String

/-- An agent dict as produced by `initialize_agents` (main.py): the `speed` field is
absent until `add_agent_speeds` runs, hence an `Option`. -/
structure Agent where
  id : String
  type : String
  current_coords : ℚ × ℚ
  target_building : Option Site
  route : Option Route
  profile : Option String
  speed : Option ℚ

/-- Intermediate value `a` of `haversine_distance` (main.py lines 48-51): the angles
are first converted from degrees to radians (`radians x = x * π / 180`). -/
noncomputable def havA (lon1 lat1 lon2 lat2 : ℝ) : ℝ :=
  Real.sin ((lat2 * (Real.pi / 180) - lat1 * (Real.pi / 180)) / 2) ^ 2 +
    Real.cos (lat1 * (Real.pi / 180)) * Real.cos (lat2 * (Real.pi / 180)) *
      Real.sin ((lon2 * (Real.pi / 180) - lon1 * (Real.pi / 180)) / 2) ^ 2

/-- `haversine_distance` (main.py lines 45-54): `c = 2 * asin(sqrt a)`, Earth radius
6,371,000 m, result `c * r` in meters. -/
noncomputable def haversine_distance (lon1 lat1 lon2 lat2 : ℝ) : ℝ :=
  2 * Real.arcsin (Real.sqrt (havA lon1 lat1 lon2 lat2)) * 6371000

/-- The `BUILDING_TYPE_WEIGHT` dict of `add_priority_scores` (main.py line 387),
looked up with default 1.0. -/
def BUILDING_TYPE_WEIGHT : List (String × ℚ) :=
  [("residential", 1), ("commercial", 1.5), ("mixed", 1.2)]

/-- The `FIRE_SEVERITY` dict (main.py lines 262-268); total on the closed severity
vocabulary, so the `.get(..., 1)` default of line 400 can never fire. -/
def FIRE_SEVERITY : FireSeverity → ℚ
  | .none => 0
  | .low => 1
  | .medium => 3
  | .high => 5
  | .critical => 10

/-- The per-building score computed by `add_priority_scores` (main.py lines 389-407). -/
noncomputable def compute_priority_score (b : Site) (center : ℚ × ℚ) : ℝ :=
  let distance_to_center :=
    haversine_distance (b.lon : ℝ) (b.lat : ℝ) (center.1 : ℝ) (center.2 : ℝ)
  let base_score := (((BUILDING_TYPE_WEIGHT.lookup b.type).getD 1 : ℚ) : ℝ) /
    (distance_to_center + 1)
  if b.has_fire then
    base_score + ((FIRE_SEVERITY b.fire_severity : ℚ) : ℝ) * (b.fire_intensity : ℝ) * 100
  else
    base_score * 0.1

/-- Modelled from the spec's words for claim C5 (refinement comparison): typeWeight
residential=1.0, commercial=1.5, mixed=1.2, unknown/other=1.0; base = typeWeight /
(distance(site, center) + 1); on fire, score = base + severityMultiplier * intensity *
100 with none=0, low=1, medium=3, high=5, critical=10; otherwise score = base * 0.1. -/
noncomputable def spec_type_weight (t : String) : ℝ :=
  if t = "residential" then 1.0
  else if t = "commercial" then 1.5
  else if t = "mixed" then 1.2
  else 1.0

/-- Modelled from the spec's words for claim C5: the severity multiplier table. -/
noncomputable def spec_severity_multiplier : FireSeverity → ℝ
  | .none => 0
  | .low => 1
  | .medium => 3
  | .high => 5
  | .critical => 10

/-- Modelled from the spec's words for claim C5: the full scoring formula. -/
noncomputable def spec_priority_score (b : Site) (center : ℚ × ℚ) : ℝ :=
  let base := spec_type_weight b.type /
    (haversine_distance (b.lon : ℝ) (b.lat : ℝ) (center.1 : ℝ) (center.2 : ℝ) + 1)
  if b.has_fire then
    base + spec_severity_multiplier b.fire_severity * (b.fire_intensity : ℝ) * 100
  else
    base * 0.1

/-- Descending-score comparison used for the stable sorts in `add_priority_scores`
(main.py line 410) and the fire phase of `assign_by_priority` (line 423):
`sort(key=priority_score, reverse=True)`. -/
def scoreGE (a b : Site) : Prop := b.priority_score ≤ a.priority_score

instance : DecidableRel scoreGE :=
  fun a b => inferInstanceAs (Decidable (b.priority_score ≤ a.priority_score))

instance : IsTotal Site scoreGE := ⟨fun a b => le_total b.priority_score a.priority_score⟩

instance : IsTrans Site scoreGE := ⟨fun _ _ _ h1 h2 => le_trans h2 h1⟩

/-- Python's stable `list.sort(key=lambda b: b['priority_score'], reverse=True)`,
modelled by the (stable) insertion sort under the descending comparison. -/
def sortByPriorityDesc (l : List Site) : List Site := l.insertionSort scoreGE

/-- The deterministic fallback of `get_optimal_agent_type_for_fire_severity`
(main.py lines 276-282, repeated at 320-326 and 330-336). -/
def fallback_agent_type (severity : FireSeverity) : String :=
  if severity = FireSeverity.low then "volunteer"
  else if severity = FireSeverity.medium then "truck"
  else "drone"

/-- Outcome of one call to the injected Gemini recommendation service:
`unavailable` covers a missing API key, a missing package and any raised exception;
`response t` is a successful reply with text `t`. -/
inductive GeminiResult where
  | unavailable
  | response (text : String)

/-- Bool test that `pat` is an initial segment of a character list. -/
def charsStartWith : List Char → List Char → Bool
  | [], _ => true
  | _ :: _, [] => false
  | p :: ps, c :: cs => p == c && charsStartWith ps cs

/-- Bool test that `pat` occurs contiguously somewhere in a character list. -/
def charsContain (pat : List Char) : List Char → Bool
  | [] => charsStartWith pat []
  | c :: cs => charsStartWith pat (c :: cs) || charsContain pat cs

/-- Python's `pat in s` substring test on strings. -/
def strContains (s pat : String) : Bool := charsContain pat.toList s.toList

/-- `get_optimal_agent_type_for_fire_severity` (main.py lines 270-336) with the
external service injected: on a reply, the text is stripped, lowercased and scanned
for the three agent keywords in order; otherwise (and on unrecognized replies) the
deterministic fallback table is used. -/
def get_optimal_agent_type_for_fire_severity (severity : FireSeverity)
    (svc : GeminiResult) : String :=
  match svc with
  | .unavailable => fallback_agent_type severity
  | .response t =>
    let result := t.trim.toLower
    if strContains result "volunteer" then "volunteer"
    else if strContains result "truck" then "truck"
    else if strContains result "drone" then "drone"
    else fallback_agent_type severity

/-- The service call did not produce a recognizable recommendation: it was
unavailable (unconfigured / errored / timed out) or its reply contains none of the
three agent keywords. -/
def geminiFailed (svc : GeminiResult) : Prop :=
  match svc with
  | .unavailable => True
  | .response t =>
      strContains t.trim.toLower "volunteer" = false ∧
      strContains t.trim.toLower "truck" = false ∧
      strContains t.trim.toLower "drone" = false

/-- Severity lookup of the fire phase: `optimal_agent_mapping.get(severity, 'truck')`
(main.py line 427). -/
def recommendedKind (m : List (FireSeverity × String)) (severity : FireSeverity) :
    String :=
  (m.lookup severity).getD "truck"

/-- Scan the agent pool in insertion order for the first agent satisfying `p` and
claim it for site `b`: set its site reference and clear its route (main.py
lines 429-445). `none` when no agent matches. -/
def claimFirst (p : Agent → Bool) (b : Site) : List Agent → Option (List Agent)
  | [] => Option.none
  | a :: rest =>
    if p a then some ({ a with target_building := some b, route := Option.none } :: rest)
    else (claimFirst p b rest).map (a :: ·)

/-- The first search predicate of the fire phase: a free agent of exactly the
recommended kind (main.py line 432). -/
def fireMatchFirst (m : List (FireSeverity × String)) (b : Site) (a : Agent) : Bool :=
  a.type == recommendedKind m b.fire_severity && a.target_building.isNone

/-- The second search predicate of the fire phase: any free agent (main.py
line 439). -/
def anyFree (a : Agent) : Bool := a.target_building.isNone

/-- One fire-phase iteration (main.py lines 425-452): look for a free agent of the
recommended kind, otherwise any free agent; on a claim, remove the site from the
unassigned list and bump the assigned count. -/
def fireStep (m : List (FireSeverity × String)) (st : List Agent × List Site × Nat)
    (b : Site) : List Agent × List Site × Nat :=
  match claimFirst (fireMatchFirst m b) b st.1 with
  | some agents2 => (agents2, st.2.1.erase b, st.2.2 + 1)
  | Option.none =>
    match claimFirst anyFree b st.1 with
    | some agents2 => (agents2, st.2.1.erase b, st.2.2 + 1)
    | Option.none => st

/-- The fire phase (main.py lines 421-452): fire sites of the unassigned list,
sorted by descending priority, are folded through `fireStep`. -/
def firePhase (m : List (FireSeverity × String)) (agents : List Agent)
    (unassigned : List Site) : List Agent × List Site × Nat :=
  (sortByPriorityDesc (unassigned.filter fun b => b.has_fire)).foldl
    (fireStep m) (agents, unassigned, 0)

/-- The remainder phase (main.py lines 455-467): walk the still-free agents in pool
order, popping the unassigned list from the front, until either runs out. -/
def remainderPhase : List Agent → List Site → List Agent × List Site × Nat
  | [], unassigned => ([], unassigned, 0)
  | a :: rest, unassigned =>
    if a.target_building.isNone then
      match unassigned with
      | [] => (a :: rest, [], 0)
      | b :: more =>
        let res := remainderPhase rest more
        ({ a with target_building := some b, route := Option.none } :: res.1,
          res.2.1, res.2.2 + 1)
    else
      let res := remainderPhase rest unassigned
      (a :: res.1, res.2.1, res.2.2)

/-- `assign_by_priority` (main.py lines 412-469), returning the updated pool and the
assigned count.  Python's `if optimal_agent_mapping:` guard is falsy both for `None`
and for an empty dict, so the fire phase runs only for a present non-empty mapping. -/
def assign_by_priority (agents : List Agent) (buildings : List Site)
    (optimal_agent_mapping : Option (List (FireSeverity × String))) :
    List Agent × Nat :=
  let st :=
    match optimal_agent_mapping with
    | some m => if m = [] then (agents, buildings, 0) else firePhase m agents buildings
    | Option.none => (agents, buildings, 0)
  let res := remainderPhase st.1 st.2.1
  (res.1, st.2.2 + res.2.2)

/-- Number of agents holding a site reference. -/
def assignedCount (agents : List Agent) : Nat :=
  (agents.filter fun a => a.target_building.isSome).length

/-- The injected directions provider (`get_mapbox_directions`): `none` models every
failure mode — non-200 response, empty route list, missing token, timeout. -/
def RouteProvider : Type :=
  (ℚ × ℚ) → (ℚ × ℚ) → Option String → Option Route

/-- The route `compute_routes` (main.py lines 211-248) determines for one agent with
a target: drones always get the straight-line route at 15 m/s; every other agent
gets exactly the provider result — on provider failure there is no fallback. -/
noncomputable def routeFor (provider : RouteProvider) (a : Agent) : Option Route :=
  match a.target_building with
  | Option.none => Option.none
  | some b =>
    if a.type = "drone" then
      let distance := haversine_distance (a.current_coords.1 : ℝ) (a.current_coords.2 : ℝ)
        (b.lon : ℝ) (b.lat : ℝ)
      some
        { geometry := [a.current_coords, (b.lon, b.lat)], distance := distance,
          duration := distance / 15, kind := some "straight_line" }
    else
      provider a.current_coords (b.lon, b.lat) a.profile

/-- Per-agent effect of `compute_routes` (main.py lines 205-248): the prior route is
cleared first (lines 207-209) and then replaced by whatever `routeFor` yields. -/
noncomputable def computeAgentRoute (provider : RouteProvider) (a : Agent) : Agent :=
  { a with route := routeFor provider a }

/-- `compute_routes` (main.py lines 205-248) over the whole pool. -/
noncomputable def compute_routes (provider : RouteProvider) (agents : List Agent) :
    List Agent :=
  agents.map (computeAgentRoute provider)

/-- Per-agent effect of `SimulationApp.compute_routes` in app.py (lines 83-122):
drones get the straight line at 15 m/s; other agents try the provider (profile
defaulting to driving) and fall back to a straight-line route whose duration uses
12 m/s for trucks and 2.5 m/s for every other kind; agents without a target are
left untouched. -/
noncomputable def appComputeAgentRoute (provider : RouteProvider) (a : Agent) : Agent :=
  match a.target_building with
  | Option.none => a
  | some b =>
    let start := a.current_coords
    let distance := haversine_distance (start.1 : ℝ) (start.2 : ℝ) (b.lon : ℝ) (b.lat : ℝ)
    if a.type = "drone" then
      { a with
          route := some
            { geometry := [start, (b.lon, b.lat)], distance := distance,
              duration := distance / 15, kind := some "straight_line" } }
    else
      match provider start (b.lon, b.lat) (some (a.profile.getD "driving")) with
      | some r => { a with route := some r }
      | Option.none =>
        { a with
            route := some
              { geometry := [start, (b.lon, b.lat)], distance := distance,
                duration := distance / (if a.type = "truck" then 12 else 2.5),
                kind := some "straight_line" } }

/-- `SimulationApp.compute_routes` (app.py lines 76-128) over the whole pool. -/
noncomputable def app_compute_routes (provider : RouteProvider) (agents : List Agent) :
    List Agent :=
  agents.map (appComputeAgentRoute provider)

/-- Per-agent effect of `update_route_durations_by_speed` (main.py lines 471-476):
if the agent has a route, its duration becomes distance / speed with the speed
attribute defaulting to 1. -/
noncomputable def updateAgentDuration (a : Agent) : Agent :=
  match a.route with
  | Option.none => a
  | some r =>
    { a with route := some { r with duration := r.distance / ((a.speed.getD 1 : ℚ) : ℝ) } }

/-- `update_route_durations_by_speed` (main.py lines 471-476). -/
noncomputable def update_route_durations_by_speed (agents : List Agent) : List Agent :=
  agents.map updateAgentDuration

/-- One assignment-and-routing cycle over pre-ranked sites (main.py lines 555-566):
`assign_by_priority`, then `compute_routes`, then the duration post-pass. -/
noncomputable def planning_cycle (provider : RouteProvider)
    (mapping : Option (List (FireSeverity × String))) (buildings : List Site)
    (agents : List Agent) : List Agent :=
  update_route_durations_by_speed
    (compute_routes provider (assign_by_priority agents buildings mapping).1)

/-- Concrete fire site (severity medium, score 50) used in closed instances. -/
def siteM : Site :=
  { id := "b1", lon := 0, lat := 0, type := "residential", has_fire := true,
    fire_severity := .medium, fire_intensity := 1, priority_score := 50 }

/-- Concrete free truck agent used in closed instances. -/
def agentTruck : Agent :=
  { id := "truck_0", type := "truck", current_coords := (0, 0),
    target_building := Option.none, route := Option.none,
    profile := some "driving", speed := some 12 }

/-- Concrete free drone agent used in closed instances. -/
def agentDrone : Agent :=
  { id := "drone_0", type := "drone", current_coords := (0, 0),
    target_building := Option.none, route := Option.none,
    profile := Option.none, speed := some 15 }

/-- The truck agent already holding the fire site as target. -/
def targetedTruck : Agent := { agentTruck with target_building := some siteM }

/-- A provider that always fails (unreachable service / missing token / timeout). -/
def failingProvider : RouteProvider := fun _ _ _ => Option.none

/-- A concrete severity mapping sending medium fires to trucks. -/
def mappingMT : Option (List (FireSeverity × String)) :=
  some [(FireSeverity.medium, "truck")]

/-- A concrete provider-style route (no straight-line tag) used in closed instances. -/
noncomputable def sampleRoute : Route :=
  { geometry := [(0, 0), (1, 1)], distance := 10, duration := 3, kind := Option.none }

/-- The truck agent carrying the sample route and the fire site. -/
noncomputable def routedTruck : Agent :=
  { agentTruck with target_building := some siteM, route := some sampleRoute }

/-- No agent of the pool references any site of the given (still unassigned) list. -/
def TargetsOK (agents : List Agent) (unassigned : List Site) : Prop :=
  ∀ a ∈ agents, ∀ s ∈ unassigned, a.target_building ≠ some s

/-- Two agents never reference the same site (vacuous when either is free). -/
def NoSharedTarget (a b : Agent) : Prop :=
  ∀ s : Site, a.target_building = some s → b.target_building = some s → False

/-- Pairwise injectivity of the pool's site references. -/
def PairwiseTargets (agents : List Agent) : Prop :=
  agents.Pairwise NoSharedTarget

/-- Bundled invariant of one assignment stage relative to its input pool `agents`
and input unassigned list `un`: the surviving unassigned list is duplicate-free and
disjoint from all site references, references stay pairwise injective, the pool
keeps its length, one site leaves the unassigned list per new reference, agents
that are still free went through untouched, every reference comes from the input
pool or the input unassigned list, and surviving sites come from the input list. -/
def StepInv (agents : List Agent) (un : List Site)
    (st2 : List Agent × List Site × Nat) : Prop :=
  st2.2.1.Nodup ∧
  TargetsOK st2.1 st2.2.1 ∧
  PairwiseTargets st2.1 ∧
  st2.1.length = agents.length ∧
  assignedCount st2.1 + st2.2.1.length = assignedCount agents + un.length ∧
  (∀ x ∈ st2.1, x.target_building = Option.none → x ∈ agents) ∧
  (∀ x ∈ st2.1, ∀ s : Site, x.target_building = some s →
    (∃ y ∈ agents, y.target_building = some s) ∨ s ∈ un) ∧
  (∀ s ∈ st2.2.1, s ∈ un)

theorem sin_half_sub_sq_comm (x y : ℝ) :
    Real.sin ((x - y) / 2) ^ 2 = Real.sin ((y - x) / 2) ^ 2 := by
  rw [show (x - y) / 2 = -((y - x) / 2) by ring, Real.sin_neg]
  ring

theorem havA_symm (lon1 lat1 lon2 lat2 : ℝ) :
    havA lon1 lat1 lon2 lat2 = havA lon2 lat2 lon1 lat1 := by
  unfold havA
  rw [sin_half_sub_sq_comm (lat2 * (Real.pi / 180)) (lat1 * (Real.pi / 180)),
    sin_half_sub_sq_comm (lon2 * (Real.pi / 180)) (lon1 * (Real.pi / 180))]
  ring

/-- C9: the haversine great-circle distance (Earth radius 6,371,000 m) is symmetric in
its two coordinate points, and the distance from any point to itself is 0. -/
theorem haversine_symm_and_self_zero :
    (∀ lon1 lat1 lon2 lat2 : ℝ,
      haversine_distance lon1 lat1 lon2 lat2 = haversine_distance lon2 lat2 lon1 lat1) ∧
    (∀ lon lat : ℝ, haversine_distance lon lat lon lat = 0) := by
  constructor
  · intro lon1 lat1 lon2 lat2
    unfold haversine_distance
    rw [havA_symm]
  · intro lon lat
    unfold haversine_distance havA
    simp

theorem type_weight_eq (t : String) :
    (((BUILDING_TYPE_WEIGHT.lookup t).getD 1 : ℚ) : ℝ) = spec_type_weight t := by
  by_cases h1 : t = "residential"
  · subst h1
    norm_num [BUILDING_TYPE_WEIGHT, spec_type_weight, List.lookup]
  · by_cases h2 : t = "commercial"
    · subst h2
      norm_num [BUILDING_TYPE_WEIGHT, spec_type_weight, List.lookup,
        (by decide : ("commercial" == "residential") = false),
        (by decide : ¬("commercial" = "residential"))]
    · by_cases h3 : t = "mixed"
      · subst h3
        norm_num [BUILDING_TYPE_WEIGHT, spec_type_weight, List.lookup,
          (by decide : ("mixed" == "residential") = false),
          (by decide : ("mixed" == "commercial") = false),
          (by decide : ¬("mixed" = "residential")),
          (by decide : ¬("mixed" = "commercial"))]
      · norm_num [BUILDING_TYPE_WEIGHT, spec_type_weight, List.lookup, h1, h2, h3,
          beq_eq_false_iff_ne.mpr h1, beq_eq_false_iff_ne.mpr h2,
          beq_eq_false_iff_ne.mpr h3]

theorem severity_multiplier_eq (s : FireSeverity) :
    ((FIRE_SEVERITY s : ℚ) : ℝ) = spec_severity_multiplier s := by
  cases s <;> simp [FIRE_SEVERITY, spec_severity_multiplier]

/-- C5: for every site and center point the score computed by
`add_priority_scores` equals the spec's formula: base = typeWeight / (haversine
distance + 1) with weights residential 1.0 / commercial 1.5 / mixed 1.2 / other 1.0;
on fire the score is base + severityMultiplier * intensity * 100 (none 0, low 1,
medium 3, high 5, critical 10), otherwise base * 0.1. -/
theorem priority_score_matches_spec (b : Site) (center : ℚ × ℚ) :
    compute_priority_score b center = spec_priority_score b center := by
  unfold compute_priority_score spec_priority_score
  rw [type_weight_eq, severity_multiplier_eq]

theorem filter_orderedInsert_score (a : Site) (L : List Site) (q : ℚ) :
    ((L.orderedInsert scoreGE a).filter fun s => decide (s.priority_score = q)) =
      if a.priority_score = q then
        a :: L.filter fun s => decide (s.priority_score = q)
      else L.filter fun s => decide (s.priority_score = q) := by
  induction L with
  | nil =>
    by_cases ha : a.priority_score = q <;> simp [List.orderedInsert, ha]
  | cons b l ih =>
    by_cases hab : scoreGE a b
    · have hstep : (b :: l).orderedInsert scoreGE a = a :: b :: l := by
        simp [List.orderedInsert, hab]
      rw [hstep]
      by_cases ha : a.priority_score = q <;> simp [List.filter_cons, ha]
    · have hstep : (b :: l).orderedInsert scoreGE a = b :: l.orderedInsert scoreGE a := by
        simp [List.orderedInsert, hab]
      rw [hstep]
      by_cases ha : a.priority_score = q <;> by_cases hb : b.priority_score = q
      · exact absurd (le_of_eq (hb.trans ha.symm)) hab
      · simp [List.filter_cons, ha, hb, ih]
      · simp [List.filter_cons, ha, hb, ih]
      · simp [List.filter_cons, ha, hb, ih]

theorem filter_sortByPriorityDesc (l : List Site) (q : ℚ) :
    ((sortByPriorityDesc l).filter fun s => decide (s.priority_score = q)) =
      l.filter fun s => decide (s.priority_score = q) := by
  induction l with
  | nil => rfl
  | cons a l ih =>
    have hstep : sortByPriorityDesc (a :: l) =
        (sortByPriorityDesc l).orderedInsert scoreGE a := rfl
    rw [hstep, filter_orderedInsert_score]
    by_cases ha : a.priority_score = q <;> simp [List.filter_cons, ha, ih]

/-- C8: the ranking sort of `add_priority_scores` returns a permutation of the input
sites sorted by priority score in descending order, and it is stable: for every
score value, the sites carrying that score appear in their original relative order. -/
theorem rank_sites_sorted_descending_and_stable (sites : List Site) :
    List.Perm (sortByPriorityDesc sites) sites ∧
    List.Pairwise (fun a b : Site => b.priority_score ≤ a.priority_score)
      (sortByPriorityDesc sites) ∧
    ∀ q : ℚ, ((sortByPriorityDesc sites).filter fun s => decide (s.priority_score = q)) =
      sites.filter fun s => decide (s.priority_score = q) :=
  ⟨List.perm_insertionSort scoreGE sites,
    List.sorted_insertionSort scoreGE sites,
    fun q => filter_sortByPriorityDesc sites q⟩

/-- C6: whenever the recommendation service is unavailable, unconfigured, errors out
or returns a reply containing none of the agent keywords, the recommendation is the
deterministic fallback table low→volunteer (foot), medium→truck (ground-vehicle),
high→drone (aerial), critical→drone (aerial). -/
theorem recommend_fallback_table (svc : GeminiResult) (h : geminiFailed svc) :
    get_optimal_agent_type_for_fire_severity .low svc = "volunteer" ∧
    get_optimal_agent_type_for_fire_severity .medium svc = "truck" ∧
    get_optimal_agent_type_for_fire_severity .high svc = "drone" ∧
    get_optimal_agent_type_for_fire_severity .critical svc = "drone" := by
  cases svc with
  | unavailable => exact ⟨rfl, rfl, rfl, rfl⟩
  | response t =>
    obtain ⟨h1, h2, h3⟩ := h
    simp [get_optimal_agent_type_for_fire_severity, h1, h2, h3, fallback_agent_type]

/-- Witness for C6: with the service unavailable, severity critical yields drone
(aerial), exactly the spec's example. -/
theorem recommend_fallback_table_witness :
    geminiFailed GeminiResult.unavailable ∧
    get_optimal_agent_type_for_fire_severity .critical GeminiResult.unavailable =
      "drone" :=
  ⟨trivial, (recommend_fallback_table GeminiResult.unavailable trivial).2.2.2⟩

/-- C4: the duration post-pass rewrites the duration of every agent holding a route
to distance / speed (speed attribute defaulting to 1), keeping every other field;
the formula never reads the old duration, so a provider-reported duration is always
discarded, whatever the route's kind. -/
theorem update_durations_sets_distance_over_speed (agents : List Agent) (i : Nat)
    (a : Agent) (r : Route) (ha : agents[i]? = some a) (hr : a.route = some r) :
    (update_route_durations_by_speed agents)[i]? =
      some
        { a with
            route := some
              { r with duration := r.distance / ((a.speed.getD 1 : ℚ) : ℝ) } } := by
  unfold update_route_durations_by_speed
  rw [List.getElem?_map, ha]
  simp [updateAgentDuration, hr]

/-- Witness for C4 at a concrete agent carrying a provider-style route. -/
theorem update_durations_sets_distance_over_speed_witness :
    [routedTruck][0]? = some routedTruck ∧ routedTruck.route = some sampleRoute ∧
    (update_route_durations_by_speed [routedTruck])[0]? =
      some
        { routedTruck with
            route := some
              { sampleRoute with
                  duration := sampleRoute.distance /
                    ((routedTruck.speed.getD 1 : ℚ) : ℝ) } } :=
  ⟨rfl, rfl,
    update_durations_sets_distance_over_speed [routedTruck] 0 routedTruck sampleRoute rfl rfl⟩

theorem updateAgentDuration_target (a : Agent) :
    (updateAgentDuration a).target_building = a.target_building := by
  cases h : a.route <;> simp [updateAgentDuration, h]

theorem updateAgentDuration_idem (a : Agent) :
    updateAgentDuration (updateAgentDuration a) = updateAgentDuration a := by
  cases h : a.route with
  | none => simp [updateAgentDuration, h]
  | some r => simp [updateAgentDuration, h]

/-- C10: the duration post-pass is a pure frame update — it preserves each agent's
site reference and the geometry, distance and kind of its route, leaves agents
without a route untouched, and applying it twice equals applying it once. -/
theorem update_durations_frame_and_idempotent :
    (∀ a : Agent, (updateAgentDuration a).target_building = a.target_building) ∧
    (∀ a : Agent,
      (updateAgentDuration a).route.map (fun r => (r.geometry, r.distance, r.kind)) =
        a.route.map fun r => (r.geometry, r.distance, r.kind)) ∧
    (∀ a : Agent, a.route = Option.none → updateAgentDuration a = a) ∧
    ∀ agents : List Agent,
      update_route_durations_by_speed (update_route_durations_by_speed agents) =
        update_route_durations_by_speed agents := by
  refine ⟨updateAgentDuration_target, ?_, ?_, ?_⟩
  · intro a; cases h : a.route <;> simp [updateAgentDuration, h]
  · intro a h; simp [updateAgentDuration, h]
  · intro agents
    unfold update_route_durations_by_speed
    rw [List.map_map]
    exact List.map_congr_left fun a _ => updateAgentDuration_idem a

/-- Witness for C10: the hypothesis branch (agent without a route is untouched) at a
concrete free agent. -/
theorem update_durations_frame_and_idempotent_witness :
    agentTruck.route = Option.none ∧ updateAgentDuration agentTruck = agentTruck :=
  ⟨rfl, update_durations_frame_and_idempotent.2.2.1 agentTruck rfl⟩

/-- Counterexample to C1 as stated: in `compute_routes` of main.py a truck (a
non-aerial agent) with an assigned site whose provider call fails ends the cycle
with no route at all — there is no straight-line fallback there. -/
theorem main_compute_routes_no_fallback_counterexample :
    targetedTruck.type = "truck" ∧ targetedTruck.target_building = some siteM ∧
    ((compute_routes failingProvider [targetedTruck]).map fun a => a.route.isSome) =
      [false] := by
  refine ⟨rfl, rfl, ?_⟩
  simp [compute_routes, computeAgentRoute, routeFor, targetedTruck, agentTruck,
    failingProvider]

/-- C1 amended: when the provider call fails for a non-aerial agent with a target,
main.py's `compute_routes` leaves the agent with no route, while app.py's
`SimulationApp.compute_routes` falls back to the straight-line route whose duration
is haversine distance divided by 12 m/s for trucks and by 2.5 m/s for every other
non-drone kind (there is no 1 m/s default). -/
theorem provider_failure_fallback_behavior (provider : RouteProvider) (a : Agent)
    (b : Site) (htgt : a.target_building = some b) (hdr : a.type ≠ "drone")
    (hfail : provider a.current_coords (b.lon, b.lat) a.profile = Option.none)
    (hfail2 : provider a.current_coords (b.lon, b.lat)
      (some (a.profile.getD "driving")) = Option.none) :
    (computeAgentRoute provider a).route = Option.none ∧
    (appComputeAgentRoute provider a).route = some
      { geometry := [a.current_coords, (b.lon, b.lat)],
        distance := haversine_distance (a.current_coords.1 : ℝ) (a.current_coords.2 : ℝ)
          (b.lon : ℝ) (b.lat : ℝ),
        duration := haversine_distance (a.current_coords.1 : ℝ) (a.current_coords.2 : ℝ)
          (b.lon : ℝ) (b.lat : ℝ) / (if a.type = "truck" then 12 else 2.5),
        kind := some "straight_line" } := by
  constructor
  · simp [computeAgentRoute, routeFor, htgt, hdr, hfail]
  · simp [appComputeAgentRoute, htgt, hdr, hfail2]

/-- Witness for the amended C1 at the concrete truck and failing provider. -/
theorem provider_failure_fallback_behavior_witness :
    targetedTruck.target_building = some siteM ∧ targetedTruck.type ≠ "drone" ∧
    (computeAgentRoute failingProvider targetedTruck).route = Option.none :=
  ⟨rfl, by decide,
    (provider_failure_fallback_behavior failingProvider targetedTruck siteM rfl
      (by decide) rfl rfl).1⟩

/-- Counterexample to C2 as stated: with the severity mapping absent the fire phase
does not run at all — the single fire site goes to the first free agent in pool
order (the drone), not to a truck as the ground-vehicle default would dictate;
with a mapping present the same pool sends the site to the truck. -/
theorem mapping_absent_fire_phase_counterexample :
    ((assign_by_priority [agentDrone, agentTruck] [siteM] Option.none).1.map
      fun a => a.target_building) = [some siteM, Option.none] ∧
    ((assign_by_priority [agentDrone, agentTruck] [siteM]
        (some [(FireSeverity.medium, "truck")])).1.map fun a => a.target_building) =
      [Option.none, some siteM] := by
  constructor <;> rfl

/-- C2 amended: an absent mapping skips the fire phase entirely
(`assign_by_priority` degenerates to the remainder phase); the ground-vehicle
(truck) default applies only to the per-severity lookup made while a non-empty
mapping is present. -/
theorem mapping_absent_skips_fire_phase (agents : List Agent) (buildings : List Site)
    (m : List (FireSeverity × String)) (sev : FireSeverity)
    (hm : m.lookup sev = Option.none) :
    assign_by_priority agents buildings Option.none =
      ((remainderPhase agents buildings).1, (remainderPhase agents buildings).2.2) ∧
    recommendedKind m sev = "truck" := by
  constructor
  · simp [assign_by_priority]
  · simp [recommendedKind, hm]

/-- Witness for the amended C2: the empty mapping has no entry for medium and the
lookup default is truck. -/
theorem mapping_absent_skips_fire_phase_witness :
    (([] : List (FireSeverity × String)).lookup FireSeverity.medium = Option.none) ∧
    recommendedKind [] FireSeverity.medium = "truck" :=
  ⟨rfl, (mapping_absent_skips_fire_phase [] [] [] FireSeverity.medium rfl).2⟩

theorem compute_routes_targets (provider : RouteProvider) (agents : List Agent) :
    ((compute_routes provider agents).map fun a => a.target_building) =
      agents.map fun a => a.target_building := by
  unfold compute_routes
  rw [List.map_map]
  rfl

theorem update_durations_targets (agents : List Agent) :
    ((update_route_durations_by_speed agents).map fun a => a.target_building) =
      agents.map fun a => a.target_building := by
  unfold update_route_durations_by_speed
  rw [List.map_map]
  exact List.map_congr_left fun a _ => updateAgentDuration_target a

theorem planning_cycle_targets (provider : RouteProvider)
    (mapping : Option (List (FireSeverity × String))) (buildings : List Site)
    (agents : List Agent) :
    ((planning_cycle provider mapping buildings agents).map fun a => a.target_building) =
      (assign_by_priority agents buildings mapping).1.map fun a => a.target_building := by
  unfold planning_cycle
  rw [update_durations_targets, compute_routes_targets]

/-- Counterexample to C7 as stated: with one truck, one drone and a single fire
site, one cycle binds the site to the truck and leaves the drone free, but running
the cycle again on the carried-over pool binds the very same site to the drone as
well — prior assignments are never cleared, so the re-run differs from a fresh
run. -/
theorem rerun_cycle_not_idempotent_counterexample :
    ((planning_cycle failingProvider mappingMT [siteM] [agentTruck, agentDrone]).map
      fun a => a.target_building) = [some siteM, Option.none] ∧
    ((planning_cycle failingProvider mappingMT [siteM]
        (planning_cycle failingProvider mappingMT [siteM] [agentTruck, agentDrone])).map
      fun a => a.target_building) = [some siteM, some siteM] := by
  constructor
  · rw [planning_cycle_targets]
    rfl
  · rw [planning_cycle_targets]
    rfl

theorem computeAgentRoute_route_irrelevant (provider : RouteProvider) (x : Agent)
    (s : Option Route) :
    computeAgentRoute provider { x with route := s } = computeAgentRoute provider x :=
  rfl

theorem computeAgentRoute_after_update (provider : RouteProvider) (x : Agent) :
    computeAgentRoute provider (updateAgentDuration x) = computeAgentRoute provider x := by
  cases h : x.route with
  | none =>
    have hx : updateAgentDuration x = x := by simp [updateAgentDuration, h]
    rw [hx]
  | some r =>
    have hx : updateAgentDuration x =
        { x with
            route := some
              { r with duration := r.distance / ((x.speed.getD 1 : ℚ) : ℝ) } } := by
      simp [updateAgentDuration, h]
    rw [hx, computeAgentRoute_route_irrelevant]

theorem computeAgentRoute_idem (provider : RouteProvider) (x : Agent) :
    computeAgentRoute provider (computeAgentRoute provider x) =
      computeAgentRoute provider x :=
  computeAgentRoute_route_irrelevant provider x (routeFor provider x)

theorem claimFirst_eq_some (p : Agent → Bool) (b : Site) :
    ∀ {agents agents2 : List Agent}, claimFirst p b agents = some agents2 →
      ∃ pre a post, agents = pre ++ a :: post ∧ p a = true ∧
        agents2 =
          pre ++ { a with target_building := some b, route := Option.none } :: post := by
  intro agents
  induction agents with
  | nil => intro agents2 h; simp [claimFirst] at h
  | cons a rest ih =>
    intro agents2 h
    by_cases hp : p a = true
    · refine ⟨[], a, rest, rfl, hp, ?_⟩
      rw [claimFirst, if_pos hp] at h
      exact (Option.some.injEq _ _ ▸ h).symm
    · rw [claimFirst, if_neg hp, Option.map_eq_some'] at h
      obtain ⟨l2, hl2, hline⟩ := h
      obtain ⟨pre, x, post, hsplit, hx, hout⟩ := ih hl2
      exact ⟨a :: pre, x, post, by rw [hsplit]; rfl, hx,
        by rw [← hline, hout]; rfl⟩

theorem claimFirst_mem_preserved (p : Agent → Bool) (b : Site)
    {agents agents2 : List Agent} (h : claimFirst p b agents = some agents2)
    (hp : ∀ x, p x = true → x.target_building = Option.none) :
    ∀ a ∈ agents, a.target_building.isSome = true → a ∈ agents2 := by
  obtain ⟨pre, x, post, rfl, hx, rfl⟩ := claimFirst_eq_some p b h
  intro a ha hsome
  rcases List.mem_append.mp ha with h1 | h2
  · exact List.mem_append.mpr (Or.inl h1)
  · rcases List.mem_cons.mp h2 with heq | hpost
    · rw [heq, hp x hx] at hsome
      cases hsome
    · exact List.mem_append.mpr (Or.inr (List.mem_cons_of_mem _ hpost))

theorem fireMatchFirst_free (m : List (FireSeverity × String)) (b : Site) (x : Agent)
    (hx : fireMatchFirst m b x = true) : x.target_building = Option.none := by
  rw [fireMatchFirst, Bool.and_eq_true] at hx
  exact Option.isNone_iff_eq_none.mp hx.2

theorem anyFree_free (x : Agent) (hx : anyFree x = true) :
    x.target_building = Option.none :=
  Option.isNone_iff_eq_none.mp hx

theorem fireStep_shape (m : List (FireSeverity × String))
    (st : List Agent × List Site × Nat) (b : Site) :
    (∃ agents2,
      (claimFirst (fireMatchFirst m b) b st.1 = some agents2 ∨
        (claimFirst (fireMatchFirst m b) b st.1 = Option.none ∧
          claimFirst anyFree b st.1 = some agents2)) ∧
      fireStep m st b = (agents2, st.2.1.erase b, st.2.2 + 1)) ∨
    (claimFirst (fireMatchFirst m b) b st.1 = Option.none ∧
      claimFirst anyFree b st.1 = Option.none ∧ fireStep m st b = st) := by
  unfold fireStep
  cases h1 : claimFirst (fireMatchFirst m b) b st.1 with
  | some agents2 => exact Or.inl ⟨agents2, Or.inl rfl, rfl⟩
  | none =>
    cases h2 : claimFirst anyFree b st.1 with
    | some agents2 => exact Or.inl ⟨agents2, Or.inr ⟨rfl, rfl⟩, rfl⟩
    | none => exact Or.inr ⟨rfl, rfl, rfl⟩

theorem fireStep_mem_preserved (m : List (FireSeverity × String))
    (st : List Agent × List Site × Nat) (b : Site) :
    ∀ a ∈ st.1, a.target_building.isSome = true → a ∈ (fireStep m st b).1 := by
  intro a ha hsome
  rcases fireStep_shape m st b with ⟨agents2, hcl, heq⟩ | ⟨_, _, heq⟩
  · rw [heq]
    rcases hcl with hcl | ⟨_, hcl⟩
    · exact claimFirst_mem_preserved _ _ hcl (fireMatchFirst_free m b) a ha hsome
    · exact claimFirst_mem_preserved _ _ hcl anyFree_free a ha hsome
  · rw [heq]
    exact ha

theorem fireFold_mem_preserved (m : List (FireSeverity × String)) :
    ∀ (fb : List Site) (st : List Agent × List Site × Nat), ∀ a ∈ st.1,
      a.target_building.isSome = true → a ∈ (fb.foldl (fireStep m) st).1 := by
  intro fb
  induction fb with
  | nil => intro st a ha _; exact ha
  | cons b fb ih =>
    intro st a ha hsome
    exact ih (fireStep m st b) a (fireStep_mem_preserved m st b a ha hsome) hsome

theorem remainderPhase_mem_preserved :
    ∀ (agents : List Agent) (un : List Site), ∀ a ∈ agents,
      a.target_building.isSome = true → a ∈ (remainderPhase agents un).1 := by
  intro agents
  induction agents with
  | nil => intro un a ha; cases ha
  | cons x rest ih =>
    intro un a ha hsome
    rcases List.mem_cons.mp ha with heq | hmem
    · subst heq
      have hx : ¬(a.target_building.isNone = true) := by
        cases h : a.target_building with
        | none => rw [h] at hsome; cases hsome
        | some s => simp [h]
      simp only [remainderPhase]
      rw [if_neg hx]
      exact List.mem_cons_self _ _
    · by_cases hx : x.target_building.isNone = true
      · simp only [remainderPhase]
        rw [if_pos hx]
        cases un with
        | nil => exact List.mem_cons_of_mem _ hmem
        | cons b more => exact List.mem_cons_of_mem _ (ih more a hmem hsome)
      · simp only [remainderPhase]
        rw [if_neg hx]
        exact List.mem_cons_of_mem _ (ih un a hmem hsome)

/-- C7 amended: route recomputation is idempotent — `compute_routes` clears every
route before recomputing, so composing it (with the duration post-pass) with itself
changes nothing — but prior assignments are never cleared: every already-assigned
agent passes through `assign_by_priority` unchanged, which is why a re-run on a
carried-over pool can double-assign a site whenever free agents remain. -/
theorem route_recompute_idempotent_and_assignments_persist (provider : RouteProvider) :
    (∀ agents : List Agent,
      update_route_durations_by_speed (compute_routes provider
        (update_route_durations_by_speed (compute_routes provider agents))) =
      update_route_durations_by_speed (compute_routes provider agents)) ∧
    ∀ (agents : List Agent) (buildings : List Site)
      (m : Option (List (FireSeverity × String))), ∀ a ∈ agents,
      a.target_building.isSome = true → a ∈ (assign_by_priority agents buildings m).1 := by
  constructor
  · intro agents
    unfold update_route_durations_by_speed compute_routes
    rw [List.map_map, List.map_map, List.map_map, List.map_map]
    apply List.map_congr_left
    intro a _
    show updateAgentDuration (computeAgentRoute provider
        (updateAgentDuration (computeAgentRoute provider a))) =
      updateAgentDuration (computeAgentRoute provider a)
    rw [computeAgentRoute_after_update, computeAgentRoute_idem]
  · intro agents buildings m a ha hsome
    cases m with
    | none =>
      exact remainderPhase_mem_preserved agents buildings a ha hsome
    | some mm =>
      by_cases hmm : mm = []
      · subst hmm
        simp only [assign_by_priority, if_pos rfl]
        exact remainderPhase_mem_preserved agents buildings a ha hsome
      · simp only [assign_by_priority, if_neg hmm]
        refine remainderPhase_mem_preserved _ _ a ?_ hsome
        exact fireFold_mem_preserved mm _ (agents, buildings, 0) a ha hsome

/-- Witness for the amended C7: the already-targeted truck passes through
`assign_by_priority` untouched. -/
theorem route_recompute_idempotent_witness :
    targetedTruck ∈ [targetedTruck] ∧ targetedTruck.target_building.isSome = true ∧
    targetedTruck ∈ (assign_by_priority [targetedTruck] [siteM] Option.none).1 :=
  ⟨List.mem_cons_self _ _, rfl,
    (route_recompute_idempotent_and_assignments_persist failingProvider).2
      [targetedTruck] [siteM] Option.none targetedTruck (List.mem_cons_self _ _) rfl⟩

theorem claimFirst_spec (p : Agent → Bool) (b : Site) {agents agents2 : List Agent}
    (h : claimFirst p b agents = some agents2)
    (hp : ∀ x, p x = true → x.target_building = Option.none) :
    agents2.length = agents.length ∧
    assignedCount agents2 = assignedCount agents + 1 ∧
    (∀ x ∈ agents2, x.target_building = Option.none → x ∈ agents) ∧
    (∀ x ∈ agents2, ∀ s : Site, x.target_building = some s →
      s = b ∨ ∃ y ∈ agents, y.target_building = some s) := by
  obtain ⟨pre, c, post, rfl, hc, rfl⟩ := claimFirst_eq_some p b h
  have hcnone := hp c hc
  refine ⟨by simp, ?_, ?_, ?_⟩
  · unfold assignedCount
    rw [List.filter_append, List.filter_append, List.filter_cons, List.filter_cons]
    simp [hcnone]
    omega
  · intro x hx2 hfree
    rcases List.mem_append.mp hx2 with h1 | h2
    · exact List.mem_append.mpr (Or.inl h1)
    · rcases List.mem_cons.mp h2 with heq | hpost
      · rw [heq] at hfree
        simp at hfree
      · exact List.mem_append.mpr (Or.inr (List.mem_cons_of_mem _ hpost))
  · intro x hx2 s hs
    rcases List.mem_append.mp hx2 with h1 | h2
    · exact Or.inr ⟨x, List.mem_append.mpr (Or.inl h1), hs⟩
    · rcases List.mem_cons.mp h2 with heq | hpost
      · rw [heq] at hs
        simp only [Option.some.injEq] at hs
        exact Or.inl hs.symm
      · exact Or.inr ⟨x, List.mem_append.mpr (Or.inr (List.mem_cons_of_mem _ hpost)), hs⟩

theorem claimFirst_pairwise (p : Agent → Bool) (b : Site) {agents agents2 : List Agent}
    (h : claimFirst p b agents = some agents2)
    (hb : ∀ x ∈ agents, x.target_building ≠ some b)
    (hPW : PairwiseTargets agents) : PairwiseTargets agents2 := by
  obtain ⟨pre, c, post, rfl, hc, rfl⟩ := claimFirst_eq_some p b h
  unfold PairwiseTargets at hPW ⊢
  rw [List.pairwise_append] at hPW ⊢
  obtain ⟨hpre, hcons, hcross⟩ := hPW
  rw [List.pairwise_cons] at hcons ⊢
  obtain ⟨_, hpost⟩ := hcons
  refine ⟨hpre, ⟨?_, hpost⟩, ?_⟩
  · intro y hy s hs1 hs2
    simp only [Option.some.injEq] at hs1
    rw [← hs1] at hs2
    exact hb y (List.mem_append.mpr (Or.inr (List.mem_cons_of_mem _ hy))) hs2
  · intro x hxp y hy
    rcases List.mem_cons.mp hy with heq | hy2
    · intro s hs1 hs2
      rw [heq] at hs2
      simp only [Option.some.injEq] at hs2
      rw [← hs2] at hs1
      exact hb x (List.mem_append.mpr (Or.inl hxp)) hs1
    · exact hcross x hxp y (List.mem_cons_of_mem _ hy2)

theorem claimFirst_targetsOK (p : Agent → Bool) (b : Site)
    {agents agents2 : List Agent} (h : claimFirst p b agents = some agents2)
    {un : List Site} (hnod : un.Nodup) (hTO : TargetsOK agents un) :
    TargetsOK agents2 (un.erase b) := by
  obtain ⟨pre, c, post, rfl, hc, rfl⟩ := claimFirst_eq_some p b h
  intro x hx s hs
  have hsun : s ∈ un := List.mem_of_mem_erase hs
  have hsnb : s ≠ b := ((List.Nodup.mem_erase_iff hnod).mp hs).1
  rcases List.mem_append.mp hx with h1 | h2
  · exact hTO x (List.mem_append.mpr (Or.inl h1)) s hsun
  · rcases List.mem_cons.mp h2 with heq | hpost
    · rw [heq]
      intro heq2
      simp only [Option.some.injEq] at heq2
      exact hsnb heq2.symm
    · exact hTO x (List.mem_append.mpr (Or.inr (List.mem_cons_of_mem _ hpost))) s hsun

theorem StepInv.rfl {agents : List Agent} {un : List Site} {cnt : Nat}
    (hnod : un.Nodup) (hTO : TargetsOK agents un) (hPW : PairwiseTargets agents) :
    StepInv agents un (agents, un, cnt) :=
  ⟨hnod, hTO, hPW, Eq.refl _, Eq.refl _, fun _ hx _ => hx,
    fun x hx _ hs => Or.inl ⟨x, hx, hs⟩, fun _ hs => hs⟩

theorem StepInv.trans {agents : List Agent} {un : List Site}
    {st1 st2 : List Agent × List Site × Nat}
    (h1 : StepInv agents un st1) (h2 : StepInv st1.1 st1.2.1 st2) :
    StepInv agents un st2 := by
  obtain ⟨n1, t1, p1, l1, c1, f1, o1, s1⟩ := h1
  obtain ⟨n2, t2, p2, l2, c2, f2, o2, s2⟩ := h2
  refine ⟨n2, t2, p2, l2.trans l1, by omega, ?_, ?_, ?_⟩
  · intro x hx hfree
    exact f1 x (f2 x hx hfree) hfree
  · intro x hx s hs
    rcases o2 x hx s hs with ⟨y, hy, hys⟩ | hsin
    · rcases o1 y hy s hys with hor | hsin2
      · exact Or.inl hor
      · exact Or.inr hsin2
    · exact Or.inr (s1 s hsin)
  · intro s hs
    exact s1 s (s2 s hs)

theorem fireStep_spec (m : List (FireSeverity × String)) (agents : List Agent)
    (un : List Site) (cnt : Nat) (b : Site) (hnod : un.Nodup)
    (hTO : TargetsOK agents un) (hPW : PairwiseTargets agents) (hb : b ∈ un) :
    StepInv agents un (fireStep m (agents, un, cnt) b) ∧
    ∀ s ∈ un, s ≠ b → s ∈ (fireStep m (agents, un, cnt) b).2.1 := by
  have hbfree : ∀ x ∈ agents, x.target_building ≠ some b :=
    fun x hx => hTO x hx b hb
  have hun1 : 0 < un.length := List.length_pos.mpr (List.ne_nil_of_mem hb)
  have herase := List.length_erase_of_mem hb
  rcases fireStep_shape m (agents, un, cnt) b with ⟨agents2, hcl, heq⟩ | ⟨_, _, heq⟩
  · have hclspec :
        agents2.length = agents.length ∧
        assignedCount agents2 = assignedCount agents + 1 ∧
        (∀ x ∈ agents2, x.target_building = Option.none → x ∈ agents) ∧
        (∀ x ∈ agents2, ∀ s : Site, x.target_building = some s →
          s = b ∨ ∃ y ∈ agents, y.target_building = some s) := by
      rcases hcl with hcl | ⟨_, hcl⟩
      · exact claimFirst_spec _ b hcl (fireMatchFirst_free m b)
      · exact claimFirst_spec _ b hcl anyFree_free
    have hclpw : PairwiseTargets agents2 := by
      rcases hcl with hcl | ⟨_, hcl⟩
      · exact claimFirst_pairwise _ b hcl hbfree hPW
      · exact claimFirst_pairwise _ b hcl hbfree hPW
    have hclto : TargetsOK agents2 (un.erase b) := by
      rcases hcl with hcl | ⟨_, hcl⟩
      · exact claimFirst_targetsOK _ b hcl hnod hTO
      · exact claimFirst_targetsOK _ b hcl hnod hTO
    obtain ⟨hlen, hcnt, hfree, horig⟩ := hclspec
    rw [heq]
    refine ⟨⟨hnod.erase b, hclto, hclpw, hlen, ?_, hfree, ?_, ?_⟩, ?_⟩
    · show assignedCount agents2 + (un.erase b).length = assignedCount agents + un.length
      rw [hcnt, herase]
      omega
    · intro x hx s hs
      rcases horig x hx s hs with rfl | hy
      · exact Or.inr hb
      · exact Or.inl hy
    · intro s hs
      exact List.mem_of_mem_erase hs
    · intro s hsun hsnb
      exact (List.mem_erase_of_ne hsnb).mpr hsun
  · rw [heq]
    exact ⟨StepInv.rfl hnod hTO hPW, fun s hs _ => hs⟩

theorem fireFold_spec (m : List (FireSeverity × String)) (fb : List Site) :
    ∀ (agents : List Agent) (un : List Site) (cnt : Nat),
      un.Nodup → TargetsOK agents un → PairwiseTargets agents → fb.Nodup →
      (∀ s ∈ fb, s ∈ un) →
      StepInv agents un (fb.foldl (fireStep m) (agents, un, cnt)) := by
  induction fb with
  | nil =>
    intro agents un cnt hnod hTO hPW _ _
    exact StepInv.rfl hnod hTO hPW
  | cons b fb ih =>
    intro agents un cnt hnod hTO hPW hfb hmem
    have hb : b ∈ un := hmem b (List.mem_cons_self b fb)
    obtain ⟨hstep, hsurv⟩ := fireStep_spec m agents un cnt b hnod hTO hPW hb
    have hbfb : b ∉ fb := (List.nodup_cons.mp hfb).1
    have hmem2 : ∀ s ∈ fb, s ∈ (fireStep m (agents, un, cnt) b).2.1 := by
      intro s hs
      have hsun : s ∈ un := hmem s (List.mem_cons_of_mem _ hs)
      have hsnb : s ≠ b := fun hsb => hbfb (hsb ▸ hs)
      exact hsurv s hsun hsnb
    exact StepInv.trans hstep
      (ih _ _ _ hstep.1 hstep.2.1 hstep.2.2.1 (List.nodup_cons.mp hfb).2 hmem2)

theorem firePhase_spec (m : List (FireSeverity × String)) (agents : List Agent)
    (un : List Site) (hnod : un.Nodup) (hTO : TargetsOK agents un)
    (hPW : PairwiseTargets agents) :
    StepInv agents un (firePhase m agents un) := by
  unfold firePhase
  have hperm := List.perm_insertionSort scoreGE (un.filter fun b => b.has_fire)
  refine fireFold_spec m _ agents un 0 hnod hTO hPW ?_ ?_
  · exact hperm.symm.nodup (hnod.filter _)
  · intro s hs
    exact List.mem_of_mem_filter (hperm.mem_iff.mp hs)

theorem remainderPhase_spec :
    ∀ (agents : List Agent) (un : List Site), un.Nodup → TargetsOK agents un →
      PairwiseTargets agents →
      StepInv agents un (remainderPhase agents un) ∧
      ((remainderPhase agents un).2.1 = [] ∨
        ∀ x ∈ (remainderPhase agents un).1, x.target_building.isSome = true) := by
  intro agents
  induction agents with
  | nil =>
    intro un hnod hTO hPW
    have hres : remainderPhase [] un = ([], un, 0) := rfl
    rw [hres]
    constructor
    · exact ⟨hnod, fun x hx => absurd hx (List.not_mem_nil x), List.Pairwise.nil,
        rfl, rfl, fun x hx => absurd hx (List.not_mem_nil x),
        fun x hx => absurd hx (List.not_mem_nil x), fun _ hs => hs⟩
    · exact Or.inr fun x hx => absurd hx (List.not_mem_nil x)
  | cons a rest ih =>
    intro un hnod hTO hPW
    have hTOr : TargetsOK rest un := fun x hx => hTO x (List.mem_cons_of_mem a hx)
    have hPWc := List.pairwise_cons.mp hPW
    by_cases hfree : a.target_building.isNone = true
    · have hanone : a.target_building = Option.none :=
        Option.isNone_iff_eq_none.mp hfree
      cases un with
      | nil =>
        have hres : remainderPhase (a :: rest) [] = (a :: rest, [], 0) := by
          simp only [remainderPhase, if_pos hfree]
        rw [hres]
        constructor
        · exact ⟨List.nodup_nil, fun x _ s hs => absurd hs (List.not_mem_nil s), hPW,
            rfl, rfl, fun x hx _ => hx, fun x hx _ hs => Or.inl ⟨x, hx, hs⟩,
            fun _ hs => hs⟩
        · exact Or.inl rfl
      | cons b more =>
        have hbmore : b ∉ more := (List.nodup_cons.mp hnod).1
        have hTOrm : TargetsOK rest more :=
          fun x hx s hs => hTOr x hx s (List.mem_cons_of_mem b hs)
        obtain ⟨ihInv, ihDisj⟩ := ih more (List.nodup_cons.mp hnod).2 hTOrm hPWc.2
        obtain ⟨n1, t1, p1, l1, c1, f1, o1, s1⟩ := ihInv
        have hres : remainderPhase (a :: rest) (b :: more) =
            ({ a with target_building := some b, route := Option.none } ::
                (remainderPhase rest more).1,
              (remainderPhase rest more).2.1, (remainderPhase rest more).2.2 + 1) := by
          simp only [remainderPhase, if_pos hfree]
        rw [hres]
        constructor
        · refine ⟨n1, ?_, ?_, ?_, ?_, ?_, ?_, ?_⟩
          · intro x hx s hs
            rcases List.mem_cons.mp hx with heq | hx2
            · rw [heq]
              intro heq2
              simp only [Option.some.injEq] at heq2
              subst heq2
              exact hbmore (s1 _ hs)
            · exact t1 x hx2 s hs
          · refine List.pairwise_cons.mpr ⟨?_, p1⟩
            intro y hy s hs1 hs2
            simp only [Option.some.injEq] at hs1
            subst hs1
            rcases o1 y hy _ hs2 with ⟨z, hz, hzb⟩ | hbin
            · exact hTO z (List.mem_cons_of_mem a hz) b (List.mem_cons_self b more) hzb
            · exact hbmore hbin
          · simp only [List.length_cons, l1]
          · unfold assignedCount
            rw [List.filter_cons, List.filter_cons]
            simp [hanone]
            unfold assignedCount at c1
            omega
          · intro x hx hxfree
            rcases List.mem_cons.mp hx with heq | hx2
            · rw [heq] at hxfree
              simp at hxfree
            · exact List.mem_cons_of_mem a (f1 x hx2 hxfree)
          · intro x hx s hs
            rcases List.mem_cons.mp hx with heq | hx2
            · rw [heq] at hs
              simp only [Option.some.injEq] at hs
              subst hs
              exact Or.inr (List.mem_cons_self b more)
            · rcases o1 x hx2 s hs with ⟨y, hy, hys⟩ | hsin
              · exact Or.inl ⟨y, List.mem_cons_of_mem a hy, hys⟩
              · exact Or.inr (List.mem_cons_of_mem b hsin)
          · intro s hs
            exact List.mem_cons_of_mem b (s1 s hs)
        · rcases ihDisj with h | h
          · exact Or.inl h
          · refine Or.inr ?_
            intro x hx
            rcases List.mem_cons.mp hx with heq | hx2
            · rw [heq]
              rfl
            · exact h x hx2
    · have hasome : a.target_building.isSome = true := by
        cases h : a.target_building with
        | none => rw [h] at hfree; exact absurd rfl hfree
        | some s => rfl
      obtain ⟨ihInv, ihDisj⟩ := ih un hnod hTOr hPWc.2
      obtain ⟨n1, t1, p1, l1, c1, f1, o1, s1⟩ := ihInv
      have hres : remainderPhase (a :: rest) un =
          (a :: (remainderPhase rest un).1, (remainderPhase rest un).2.1,
            (remainderPhase rest un).2.2) := by
        simp only [remainderPhase, if_neg hfree]
      rw [hres]
      constructor
      · refine ⟨n1, ?_, ?_, ?_, ?_, ?_, ?_, ?_⟩
        · intro x hx s hs
          rcases List.mem_cons.mp hx with heq | hx2
          · rw [heq]
            exact hTO a (List.mem_cons_self a rest) s (s1 s hs)
          · exact t1 x hx2 s hs
        · refine List.pairwise_cons.mpr ⟨?_, p1⟩
          intro y hy s hs1 hs2
          rcases o1 y hy s hs2 with ⟨z, hz, hzs⟩ | hsin
          · exact hPWc.1 z hz s hs1 hzs
          · exact hTO a (List.mem_cons_self a rest) s hsin hs1
        · simp only [List.length_cons, l1]
        · unfold assignedCount
          rw [List.filter_cons, List.filter_cons]
          simp [hasome]
          unfold assignedCount at c1
          omega
        · intro x hx hxfree
          rcases List.mem_cons.mp hx with heq | hx2
          · rw [heq]
            exact List.mem_cons_self a rest
          · exact List.mem_cons_of_mem a (f1 x hx2 hxfree)
        · intro x hx s hs
          rcases List.mem_cons.mp hx with heq | hx2
          · rw [heq] at hs
            exact Or.inl ⟨a, List.mem_cons_self a rest, hs⟩
          · rcases o1 x hx2 s hs with ⟨y, hy, hys⟩ | hsin
            · exact Or.inl ⟨y, List.mem_cons_of_mem a hy, hys⟩
            · exact Or.inr hsin
        · exact s1
      · rcases ihDisj with h | h
        · exact Or.inl h
        · refine Or.inr ?_
          intro x hx
          rcases List.mem_cons.mp hx with heq | hx2
          · rw [heq]
            exact hasome
          · exact h x hx2

theorem pairwiseTargets_of_all_free {l : List Agent}
    (h : ∀ a ∈ l, a.target_building = Option.none) : PairwiseTargets l := by
  induction l with
  | nil => exact List.Pairwise.nil
  | cons a rest ih =>
    refine List.pairwise_cons.mpr
      ⟨?_, ih fun x hx => h x (List.mem_cons_of_mem a hx)⟩
    intro y _ s hs1 _
    rw [h a (List.mem_cons_self a rest)] at hs1
    exact Option.noConfusion hs1

theorem assign_finish {agents : List Agent} {buildings : List Site}
    (out : List Agent × List Site × Nat) (hInv : StepInv agents buildings out)
    (hDisj : out.2.1 = [] ∨ ∀ x ∈ out.1, x.target_building.isSome = true)
    (hcount0 : assignedCount agents = 0)
    (hroutes : ∀ a ∈ agents, a.route = Option.none) :
    PairwiseTargets out.1 ∧
    assignedCount out.1 = min agents.length buildings.length ∧
    ∀ a ∈ out.1, a.target_building = Option.none → a.route = Option.none := by
  obtain ⟨_, _, p1, l1, c1, f1, _, _⟩ := hInv
  refine ⟨p1, ?_, ?_⟩
  · have hle : assignedCount out.1 ≤ out.1.length := List.length_filter_le _ _
    rw [l1] at hle
    rcases hDisj with h | h
    · rw [h] at c1
      simp at c1
      omega
    · have hself : out.1.filter (fun a => a.target_building.isSome) = out.1 :=
        List.filter_eq_self.mpr h
      have hfull : assignedCount out.1 = out.1.length := by
        unfold assignedCount
        rw [hself]
      rw [l1] at hfull
      omega
  · intro a ha hfree
    exact hroutes a (f1 a ha hfree)

/-- C3: starting from a fresh pool (no assignments, no routes) and a
duplicate-free site list, one full run of `assign_by_priority` yields a partial
injective matching: no two agents reference the same site, exactly
min(agents, sites) agents end up assigned — so sites in excess of the agent count
stay unassigned — and every still-free agent still has no route. -/
theorem assign_by_priority_injective_partial (agents : List Agent)
    (buildings : List Site) (mapping : Option (List (FireSeverity × String)))
    (hfresh : ∀ a ∈ agents,
      a.target_building = Option.none ∧ a.route = Option.none)
    (hnodup : buildings.Nodup) :
    PairwiseTargets (assign_by_priority agents buildings mapping).1 ∧
    assignedCount (assign_by_priority agents buildings mapping).1 =
      min agents.length buildings.length ∧
    ∀ a ∈ (assign_by_priority agents buildings mapping).1,
      a.target_building = Option.none → a.route = Option.none := by
  have hTO : TargetsOK agents buildings := by
    intro a ha s _ heq
    rw [(hfresh a ha).1] at heq
    exact Option.noConfusion heq
  have hPW : PairwiseTargets agents :=
    pairwiseTargets_of_all_free fun a ha => (hfresh a ha).1
  have hcount0 : assignedCount agents = 0 := by
    have hnil : agents.filter (fun a => a.target_building.isSome) = [] :=
      List.filter_eq_nil_iff.mpr fun a ha => by rw [(hfresh a ha).1]; simp
    unfold assignedCount
    rw [hnil]
    rfl
  have hroutes : ∀ a ∈ agents, a.route = Option.none := fun a ha => (hfresh a ha).2
  cases mapping with
  | none =>
    obtain ⟨rInv, rDisj⟩ := remainderPhase_spec agents buildings hnodup hTO hPW
    have hgoal := assign_finish _ rInv rDisj hcount0 hroutes
    have hres : assign_by_priority agents buildings Option.none =
        ((remainderPhase agents buildings).1,
          0 + (remainderPhase agents buildings).2.2) := by
      simp only [assign_by_priority]
    rw [hres]
    exact hgoal
  | some mm =>
    by_cases hmm : mm = []
    · subst hmm
      obtain ⟨rInv, rDisj⟩ := remainderPhase_spec agents buildings hnodup hTO hPW
      have hgoal := assign_finish _ rInv rDisj hcount0 hroutes
      have hres : assign_by_priority agents buildings (some []) =
          ((remainderPhase agents buildings).1,
            0 + (remainderPhase agents buildings).2.2) := rfl
      rw [hres]
      exact hgoal
    · have fInv := firePhase_spec mm agents buildings hnodup hTO hPW
      obtain ⟨rInv, rDisj⟩ := remainderPhase_spec (firePhase mm agents buildings).1
        (firePhase mm agents buildings).2.1 fInv.1 fInv.2.1 fInv.2.2.1
      have hgoal := assign_finish _ (StepInv.trans fInv rInv) rDisj hcount0 hroutes
      have hres : assign_by_priority agents buildings (some mm) =
          ((remainderPhase (firePhase mm agents buildings).1
              (firePhase mm agents buildings).2.1).1,
            (firePhase mm agents buildings).2.2 +
              (remainderPhase (firePhase mm agents buildings).1
                (firePhase mm agents buildings).2.1).2.2) := by
        simp only [assign_by_priority, if_neg hmm]
      rw [hres]
      exact hgoal

/-- Witness for C3 at a concrete fresh two-agent pool and one fire site. -/
theorem assign_by_priority_injective_partial_witness :
    ((∀ a ∈ [agentTruck, agentDrone],
        a.target_building = Option.none ∧ a.route = Option.none) ∧
      ([siteM] : List Site).Nodup) ∧
    (PairwiseTargets (assign_by_priority [agentTruck, agentDrone] [siteM] mappingMT).1 ∧
      assignedCount (assign_by_priority [agentTruck, agentDrone] [siteM] mappingMT).1 =
        min ([agentTruck, agentDrone] : List Agent).length
          ([siteM] : List Site).length ∧
      ∀ a ∈ (assign_by_priority [agentTruck, agentDrone] [siteM] mappingMT).1,
        a.target_building = Option.none → a.route = Option.none) := by
  have h1 : ∀ a ∈ [agentTruck, agentDrone],
      a.target_building = Option.none ∧ a.route = Option.none := by
    intro a ha
    rcases List.mem_cons.mp ha with rfl | ha2
    · exact ⟨rfl, rfl⟩
    · rcases List.mem_cons.mp ha2 with rfl | h3
      · exact ⟨rfl, rfl⟩
      · exact absurd h3 (List.not_mem_nil a)
  have h2 : ([siteM] : List Site).Nodup := List.nodup_singleton _
  exact ⟨⟨h1, h2⟩,
    assign_by_priority_injective_partial [agentTruck, agentDrone] [siteM] mappingMT h1 h2⟩

end MacEngComp
